import Mathlib

/-!
Verification of the instrumentation-and-memoization layer of the repository
(`0x02-redis_basic/exercise.py` and `0x02-redis_basic/web.py`).

The external Redis store is modelled as an explicit state: a clock, a list of
key/value entries (with optional absolute expiry, to model `SETEX`), and a list
of named append-only lists (for `RPUSH` / `LRANGE`).  Values held under a plain
key are either raw byte strings (written by `SET`/`SETEX`) or integers (written
by `INCR`; Redis keeps integer-encoded strings and `GET` renders them in
decimal).  Bytes are modelled by `String` (the byte payload read back by the
client).  Every operation of the Python code becomes explicit state passing;
fallible Python code returns `Except`, with the store state threaded through
even on failure (an exception does not roll back writes already issued to the
external store).
-/

/-- A value held under a plain Redis key: a raw byte string (from `SET` /
`SETEX`) or an integer (from `INCR`; Redis integer-encodes such values and
`GET` returns their decimal representation). -/
inductive RVal where
  | s (v : String)
  | i (n : Int)
deriving DecidableEq, Repr

/-- Decimal rendering seen by a client `GET`: raw strings unchanged, integers
printed in base 10. -/
def RVal.toBytes : RVal → String
  | .s v => v
  | .i n => toString n

/-- One plain-key entry of the store: key, value, and optional absolute expiry
time (set by `SETEX`, absent for `SET`/`INCR`). -/
structure KVEntry where
  key : String
  val : RVal
  expiry : Option Nat
deriving DecidableEq, Repr

/-- The external Redis store: a clock (for TTL expiry), the plain keyspace and
the list keyspace.  The most recent write to a key is the first matching entry. -/
structure RedisState where
  time : Nat
  kv : List KVEntry
  lists : List (String × List String)
deriving DecidableEq, Repr

/-- The empty store at time zero. -/
def RedisState.empty : RedisState := ⟨0, [], []⟩

/-- First entry for a key, i.e. the most recent write headed the list. -/
def findKV : List KVEntry → String → Option KVEntry
  | [], _ => none
  | e :: es, k => if e.key = k then some e else findKV es k

/-- Live value under a plain key: the most recent write, unless its expiry has
passed, in which case the key is absent. -/
def RedisState.lookupVal (st : RedisState) (k : String) : Option RVal :=
  match findKV st.kv k with
  | none => none
  | some e =>
    match e.expiry with
    | none => some e.val
    | some t => if st.time < t then some e.val else none

/-- `GET key`: the live value rendered as bytes, or absent. -/
def RedisState.get (st : RedisState) (k : String) : Option String :=
  (st.lookupVal k).map RVal.toBytes

/-- `SET key value`: overwrite with a raw string, clearing any expiry. -/
def RedisState.set (st : RedisState) (k : String) (v : String) : RedisState :=
  { st with kv := ⟨k, .s v, none⟩ :: st.kv }

/-- `SETEX key ttl value`: overwrite with a raw string that expires `ttl`
time units from now. -/
def RedisState.setex (st : RedisState) (k : String) (ttl : Nat) (v : String) : RedisState :=
  { st with kv := ⟨k, .s v, some (st.time + ttl)⟩ :: st.kv }

/-- The integer a counter key currently holds: an integer value directly, the
parse of a raw string, or 0 when the key is absent (so `INCR` creates keys at
0 → 1).  All keys incremented by this codebase only ever hold `INCR`-written
integers. -/
def RedisState.counter (st : RedisState) (k : String) : Int :=
  match st.lookupVal k with
  | some (.i m) => m
  | some (.s v) => (v.toInt?).getD 0
  | none => 0

/-- `INCR key`: atomically add one to the integer under `k` (0 when absent)
and return the new value.  The keys incremented here never carry a TTL. -/
def RedisState.incr (st : RedisState) (k : String) : RedisState × Int :=
  let n := st.counter k + 1
  ({ st with kv := ⟨k, .i n, none⟩ :: st.kv }, n)

/-- Contents of a named list (empty when the list does not exist). -/
def findList : List (String × List String) → String → List String
  | [], _ => []
  | p :: ps, k => if p.1 = k then p.2 else findList ps k

/-- `LRANGE key 0 -1`: the whole list, in insertion order (the only form
of `LRANGE` this codebase issues). -/
def RedisState.lrange (st : RedisState) (k : String) : List String :=
  findList st.lists k

/-- `RPUSH key value`: append one element at the tail of the named list. -/
def RedisState.rpush (st : RedisState) (k : String) (v : String) : RedisState :=
  { st with lists := (k, st.lrange k ++ [v]) :: st.lists }

/-- `FLUSHDB`: drop every key of the store. -/
def RedisState.flushdb (st : RedisState) : RedisState :=
  { st with kv := [], lists := [] }

/-- Advance the store clock by `dt` time units (lets TTLs expire). -/
def RedisState.tick (st : RedisState) (dt : Nat) : RedisState :=
  { st with time := st.time + dt }

/-!
## Model of `0x02-redis_basic/exercise.py`
-/

/-- A Python scalar accepted by `Cache.store` (`Union[str, bytes, int, float]`).
Bytes are modelled by their payload string; a float is modelled by its decimal
representation (`repr`), which is all the store client ever sees of it. -/
inductive PyVal where
  | str (s : String)
  | bytes (b : String)
  | int (n : Int)
  | float (r : String)
deriving DecidableEq, Repr

/-- How the Redis client serializes a scalar argument of `SET` to raw bytes:
text is UTF-8 encoded, bytes pass through, numbers are printed in decimal. -/
def PyVal.serialize : PyVal → String
  | .str s => s
  | .bytes b => b
  | .int n => toString n
  | .float r => r

/-- Python error values raised by coercion functions (`bytes.decode`, `int`). -/
inductive PyErr where
  | decodeError
  | parseError
  | other (msg : String)
deriving DecidableEq, Repr

/-- A `Cache` instance: its Redis connection plus the entropy feed for
`uuid.uuid4()` (a counter producing the next fresh key). -/
structure Cache where
  redis : RedisState
  uuidSeed : Nat
deriving DecidableEq, Repr

/-- `Cache.__init__`: connect to the store and `flushdb()` it. -/
def Cache.init (st : RedisState) : Cache := ⟨st.flushdb, 0⟩

/-- `count_calls` (exercise.py lines 11-27): wrap `method` so every call first
runs `self._redis.incr(method.__qualname__)` and then delegates, returning the
result unchanged.  `β` may itself be an `Except`, modelling a wrapped method
that raises: the increment has already reached the store. -/
def count_calls {α β : Type} (qualname : String) (method : Cache → α → Cache × β)
    (c : Cache) (a : α) : Cache × β :=
  method { c with redis := (c.redis.incr qualname).1 } a

/-- `call_history` (exercise.py lines 30-56): wrap `method` so every call
appends `ser args` (modelling `str(args)`) to `<qualname>:inputs`, then runs
the method, then appends its output to `<qualname>:outputs`. -/
def call_history {α : Type} (qualname : String) (ser : α → String)
    (method : Cache → α → Cache × String) (c : Cache) (a : α) : Cache × String :=
  let c1 : Cache := { c with redis := c.redis.rpush (qualname ++ ":inputs") (ser a) }
  let r := method c1 a
  ({ r.1 with redis := r.1.redis.rpush (qualname ++ ":outputs") r.2 }, r.2)

/-- `str(uuid.uuid4())`: the fresh-key generator, modelled by a counter so
distinct draws give distinct keys. -/
def uuid4 (seed : Nat) : String := "uuid-" ++ toString seed

/-- Body of `Cache.store` (exercise.py lines 71-84, under the decorator):
draw a fresh key, `SET` the serialized value under it, return the key. -/
def Cache.storeBody (c : Cache) (data : PyVal) : Cache × String :=
  let key := uuid4 c.uuidSeed
  (⟨c.redis.set key data.serialize, c.uuidSeed + 1⟩, key)

/-- `Cache.store` as shipped: the body wrapped by `count_calls` only (the
`call_history` decorator is never applied in this file). -/
def Cache.store : Cache → PyVal → Cache × String :=
  count_calls "Cache.store" Cache.storeBody

/-- `Cache.get` (exercise.py lines 86-107): `GET` the key; on absence return
`None` (never raising); on presence return the raw bytes, or the result of the
optional coercion `fn`, whose own failure propagates. -/
def Cache.get (c : Cache) (key : String) (fn : Option (String → Except PyErr PyVal)) :
    Except PyErr (Option PyVal) :=
  match c.redis.get key with
  | none => Except.ok none
  | some data =>
    match fn with
    | none => Except.ok (some (.bytes data))
    | some f => (f data).map some

/-- `Cache.get_str`: `get` with `fn = lambda d: d.decode("utf-8")` (decoding
is the identity on our byte model). -/
def Cache.get_str (c : Cache) (key : String) : Except PyErr (Option PyVal) :=
  c.get key (some (fun d => Except.ok (.str d)))

/-- `Cache.get_int`: `get` with `fn = int`, raising a parse error on
non-numeric content. -/
def Cache.get_int (c : Cache) (key : String) : Except PyErr (Option PyVal) :=
  c.get key (some (fun d =>
    match d.toInt? with
    | some n => Except.ok (.int n)
    | none => Except.error .parseError))

/-- `replay` (exercise.py lines 134-153): read both history lists in full via
`LRANGE key 0 -1`, print a header with the call count, then one line per call
pairing input `i` with output `i`.  `eval` on a self-produced `str(args)`
representation followed by re-formatting reproduces the stored text, so the
stored input string is used directly.  `LRANGE` is read-only per the store
capability, so the store comes back unchanged. -/
def replay (qualname : String) (st : RedisState) : RedisState × List String :=
  let inputs := st.lrange (qualname ++ ":inputs")
  let outputs := st.lrange (qualname ++ ":outputs")
  (st,
    (qualname ++ " was called " ++ toString inputs.length ++ " times:") ::
      List.zipWith (fun args out => qualname ++ args ++ " -> " ++ out) inputs outputs)

/-- Run a state-passing operation over a list of argument values, collecting
the per-call results in order. -/
def iterCalls {σ α β : Type} (op : σ → α → σ × β) : σ → List α → σ × List β
  | s, [] => (s, [])
  | s, a :: rest =>
    let r := op s a
    let q := iterCalls op r.1 rest
    (q.1, r.2 :: q.2)

/-!
## Model of `0x02-redis_basic/web.py`
-/

/-- State seen by `web.py`: the Redis connection plus a ghost counter of how
many times the underlying slow fetch has actually been invoked (the observable
the memoization claims speak about). -/
structure WebState where
  redis : RedisState
  fetchCount : Nat
deriving DecidableEq, Repr

/-- Python truthiness of `redis_client.get(...)` under `decode_responses=True`:
`None` and the empty string are falsy, any other string is truthy. -/
def truthy : Option String → Bool
  | none => false
  | some s => !s.isEmpty

/-- `cache_and_count_access` (web.py lines 19-43): unconditionally
`INCR count:<url>`, then `GET cache:<url>`; if the cached value is truthy
return it, otherwise invoke `func`, and on success `SETEX cache:<url> 10`
the result; a failure of `func` propagates with no cache write. -/
def cache_and_count_access {ε : Type} (func : WebState → String → WebState × Except ε String)
    (w : WebState) (url : String) : WebState × Except ε String :=
  let w1 : WebState := { w with redis := (w.redis.incr ("count:" ++ url)).1 }
  let cached := w1.redis.get ("cache:" ++ url)
  if truthy cached then
    (w1, Except.ok (cached.getD ""))
  else
    let r := func w1 url
    match r.2 with
    | Except.ok page =>
        ({ r.1 with redis := r.1.redis.setex ("cache:" ++ url) 10 page }, Except.ok page)
    | Except.error e => (r.1, Except.error e)

/-- Body of `get_page` (web.py lines 47-53): `requests.get(url).text`, modelled
by an abstract fetch `f` that may fail; each invocation bumps the ghost
`fetchCount`. -/
def requests_get {ε : Type} (f : String → Except ε String)
    (w : WebState) (url : String) : WebState × Except ε String :=
  ({ w with fetchCount := w.fetchCount + 1 }, f url)

/-- `get_page` as shipped: the fetch body wrapped by `cache_and_count_access`. -/
def get_page {ε : Type} (f : String → Except ε String) :
    WebState → String → WebState × Except ε String :=
  cache_and_count_access (requests_get f)

/-!
## Basic lemmas about the store model
-/

/-- Two strings with a common prefix and suffixes of different lengths differ. -/
theorem append_ne_of_length_ne {p a b : String} (h : a.length ≠ b.length) :
    p ++ a ≠ p ++ b := by
  intro heq
  have hl := congrArg String.length heq
  simp only [String.length_append] at hl
  omega

/-- The inputs-log key and the outputs-log key of one operation identity are
distinct. -/
theorem inputs_key_ne_outputs_key (qn : String) :
    qn ++ ":inputs" ≠ qn ++ ":outputs" := by
  apply append_ne_of_length_ne
  decide

/-- The access-count key and the cache key of one URL are distinct. -/
theorem count_key_ne_cache_key (url : String) :
    "count:" ++ url ≠ "cache:" ++ url := by
  intro h
  have hd := congrArg String.data h
  simp only [String.data_append] at hd
  have := List.append_cancel_right hd
  simp [String.data] at this

theorem lookupVal_set_self (st : RedisState) (k v : String) :
    (st.set k v).lookupVal k = some (.s v) := by
  simp [RedisState.set, RedisState.lookupVal, findKV]

theorem get_set_self (st : RedisState) (k v : String) :
    (st.set k v).get k = some v := by
  simp [RedisState.get, lookupVal_set_self, RVal.toBytes]

theorem lookupVal_set_other (st : RedisState) {k k' : String} (h : k ≠ k') (v : String) :
    (st.set k v).lookupVal k' = st.lookupVal k' := by
  simp [RedisState.set, RedisState.lookupVal, findKV, h]

theorem lookupVal_setex_other (st : RedisState) {k k' : String} (h : k ≠ k')
    (ttl : Nat) (v : String) :
    (st.setex k ttl v).lookupVal k' = st.lookupVal k' := by
  simp [RedisState.setex, RedisState.lookupVal, findKV, h]

theorem lookupVal_incr_other (st : RedisState) {k k' : String} (h : k ≠ k') :
    ((st.incr k).1).lookupVal k' = st.lookupVal k' := by
  simp [RedisState.incr, RedisState.lookupVal, findKV, h]

theorem get_incr_other (st : RedisState) {k k' : String} (h : k ≠ k') :
    ((st.incr k).1).get k' = st.get k' := by
  simp [RedisState.get, lookupVal_incr_other st h]

theorem counter_incr_self (st : RedisState) (k : String) :
    ((st.incr k).1).counter k = st.counter k + 1 := by
  simp [RedisState.incr, RedisState.counter, RedisState.lookupVal, findKV]

theorem counter_incr_other (st : RedisState) {k k' : String} (h : k ≠ k') :
    ((st.incr k).1).counter k' = st.counter k' := by
  simp [RedisState.counter, lookupVal_incr_other st h]

theorem counter_setex_other (st : RedisState) {k k' : String} (h : k ≠ k')
    (ttl : Nat) (v : String) :
    (st.setex k ttl v).counter k' = st.counter k' := by
  simp [RedisState.counter, lookupVal_setex_other st h]

theorem get_setex_self_live (st : RedisState) (k : String) {ttl : Nat} (h : 0 < ttl)
    (v : String) : (st.setex k ttl v).get k = some v := by
  simp [RedisState.setex, RedisState.get, RedisState.lookupVal, findKV, RVal.toBytes]
  omega

theorem get_tick_setex_self (st : RedisState) (k : String) (ttl dt : Nat) (v : String) :
    ((st.setex k ttl v).tick dt).get k = if dt < ttl then some v else none := by
  by_cases hlt : dt < ttl
  · simp only [RedisState.setex, RedisState.tick, RedisState.get, RedisState.lookupVal, findKV,
      if_pos rfl, if_pos hlt]
    simp [RVal.toBytes]
    omega
  · simp only [RedisState.setex, RedisState.tick, RedisState.get, RedisState.lookupVal, findKV,
      if_pos rfl, if_neg hlt]
    have : ¬ st.time + dt < st.time + ttl := by omega
    simp [this]

theorem lrange_rpush_self (st : RedisState) (k v : String) :
    (st.rpush k v).lrange k = st.lrange k ++ [v] := by
  simp [RedisState.rpush, RedisState.lrange, findList]

theorem lrange_rpush_other (st : RedisState) {k k' : String} (h : k ≠ k') (v : String) :
    (st.rpush k v).lrange k' = st.lrange k' := by
  simp [RedisState.rpush, RedisState.lrange, findList, h]

theorem lrange_set (st : RedisState) (k v l : String) :
    (st.set k v).lrange l = st.lrange l := rfl

theorem lrange_incr (st : RedisState) (k l : String) :
    ((st.incr k).1).lrange l = st.lrange l := rfl

theorem get_rpush (st : RedisState) (k v l : String) :
    (st.rpush k v).get l = st.get l := rfl

theorem counter_flushdb (st : RedisState) (k : String) :
    st.flushdb.counter k = 0 := rfl

theorem lrange_flushdb (st : RedisState) (k : String) :
    st.flushdb.lrange k = [] := rfl

/-!
## Claim theorems
-/

/-- Claim C2 (counterexample): the round-trip `get(store(v)) == v` fails as
stated at the concrete input `v = "hello"` (a text value): the value comes
back as the raw bytes `b"hello"`, which is not the text value `"hello"`. -/
theorem store_get_roundtrip_cex :
    (let c0 := Cache.init RedisState.empty
     let p := Cache.store c0 (PyVal.str "hello")
     Cache.get p.1 p.2 none) ≠ Except.ok (some (PyVal.str "hello")) := by
  simp only [Cache.init, Cache.store, count_calls, Cache.storeBody, Cache.get, get_set_self]
  intro h
  exact PyVal.noConfusion (Option.some.inj (Except.ok.inj h))

/-- Claim C2 (amended): storing any scalar `v` and reading it back under the
returned fresh key yields the raw byte serialization of `v` — the value was
written unmodified, and the round-trip is exact whenever `v` is already a
bytes value. -/
theorem store_get_roundtrip_raw (c : Cache) (v : PyVal) :
    Cache.get (Cache.store c v).1 (Cache.store c v).2 none
      = Except.ok (some (PyVal.bytes v.serialize)) := by
  simp [Cache.store, count_calls, Cache.storeBody, Cache.get, get_set_self]

/-- Claim C8: `Cache.get` on a key that is absent (never stored or expired)
returns the explicit absent value `None` without raising and without invoking
the optional coercion `fn` — the result is `ok none` for every `fn`, including
one that always fails. -/
theorem get_absent_returns_none (c : Cache) (k : String)
    (fn : Option (String → Except PyErr PyVal))
    (h : c.redis.get k = none) :
    Cache.get c k fn = Except.ok none := by
  simp [Cache.get, h]

/-- Witness for C8 at a concrete input: a fresh cache, an unknown key, and a
coercion that always raises; the result is still `ok none`. -/
theorem get_absent_returns_none_witness :
    Cache.get (Cache.init RedisState.empty) "missing-key"
      (some (fun _ => Except.error PyErr.parseError)) = Except.ok none :=
  get_absent_returns_none (Cache.init RedisState.empty) "missing-key"
    (some (fun _ => Except.error PyErr.parseError)) rfl

/-- `Cache.store` issues only `INCR` (from its `count_calls` wrapper) and
`SET`; the list keyspace is untouched. -/
theorem store_preserves_lists (c : Cache) (v : PyVal) :
    ((Cache.store c v).1).redis.lists = c.redis.lists := rfl

/-- Iterating `Cache.store` never touches the list keyspace. -/
theorem iter_store_preserves_lists :
    ∀ (vs : List PyVal) (c : Cache),
      ((iterCalls Cache.store c vs).1).redis.lists = c.redis.lists := by
  intro vs
  induction vs with
  | nil => intro c; rfl
  | cons v rest ih =>
      intro c
      simp only [iterCalls]
      rw [ih, store_preserves_lists]

/-- Claim C10: as shipped, `Cache.store` is wrapped only by `count_calls` and
never by `call_history`, so after any number of `store` calls on a freshly
constructed `Cache` every history list — in particular `Cache.store:inputs`
and `Cache.store:outputs` — is still empty. -/
theorem store_records_no_history (st0 : RedisState) (vs : List PyVal) (k : String) :
    ((iterCalls Cache.store (Cache.init st0) vs).1).redis.lrange k = [] := by
  show findList ((iterCalls Cache.store (Cache.init st0) vs).1).redis.lists k = []
  rw [iter_store_preserves_lists]
  rfl

/-- A single `count_calls`-wrapped call bumps the counter by one before
delegating, provided the method itself leaves the counter key alone. -/
theorem count_calls_step {α β : Type} (qn : String) (method : Cache → α → Cache × β)
    (hpres : ∀ c a, ((method c a).1).redis.counter qn = c.redis.counter qn)
    (c : Cache) (a : α) :
    ((count_calls qn method c a).1).redis.counter qn = c.redis.counter qn + 1 := by
  unfold count_calls
  rw [hpres]
  exact counter_incr_self c.redis qn

/-- Iterating a `count_calls`-wrapped method adds the number of calls to the
counter. -/
theorem iter_count_calls {α β : Type} (qn : String) (method : Cache → α → Cache × β)
    (hpres : ∀ c a, ((method c a).1).redis.counter qn = c.redis.counter qn) :
    ∀ (args : List α) (c : Cache),
      ((iterCalls (count_calls qn method) c args).1).redis.counter qn
        = c.redis.counter qn + args.length := by
  intro args
  induction args with
  | nil => intro c; simp [iterCalls]
  | cons a rest ih =>
      intro c
      simp only [iterCalls]
      rw [ih, count_calls_step qn method hpres]
      simp
      omega

/-- Claim C4: for every method wrapped by `count_calls` that does not itself
touch its counter key, after `n` invocations the store-backed counter equals
`n` (starting from an absent counter, read as 0); moreover the increment
happens before delegating: a method that always raises still leaves the
counter incremented while its error propagates unchanged, and the delegate
itself already observes the incremented counter. -/
theorem count_calls_counts {α β : Type} (qn : String) (method : Cache → α → Cache × β)
    (hpres : ∀ c a, ((method c a).1).redis.counter qn = c.redis.counter qn)
    (c0 : Cache) (h0 : c0.redis.counter qn = 0) (args : List α) :
    ((iterCalls (count_calls qn method) c0 args).1).redis.counter qn = args.length ∧
    (∀ (c : Cache) (a : α) (msg : String),
      ((count_calls qn (fun c _ => (c, (Except.error msg : Except String β))) c a).1).redis.counter qn
          = c.redis.counter qn + 1 ∧
      (count_calls qn (fun c _ => (c, (Except.error msg : Except String β))) c a).2
          = Except.error msg) ∧
    (∀ (c : Cache) (a : α),
      (count_calls qn (fun c _ => (c, c.redis.counter qn)) c a).2
        = c.redis.counter qn + 1) := by
  refine ⟨?_, ?_, ?_⟩
  · rw [iter_count_calls qn method hpres args c0, h0]
    omega
  · intro c a msg
    exact ⟨count_calls_step qn _ (fun _ _ => rfl) c a, rfl⟩
  · intro c a
    unfold count_calls
    exact counter_incr_self c.redis qn

/-- Witness for C4 at a concrete input: three calls of a trivially counted
method on a fresh cache leave the counter at 3. -/
theorem count_calls_counts_witness :
    ((iterCalls (count_calls "f" (fun (c : Cache) (_ : Unit) => (c, "r")))
        (Cache.init RedisState.empty) [(), (), ()]).1).redis.counter "f" = 3 :=
  (count_calls_counts "f" (fun c _ => (c, "r")) (fun _ _ => rfl)
    (Cache.init RedisState.empty) rfl [(), (), ()]).1

/-- Effect of one `call_history`-wrapped call on the two logs: the serialized
input lands at the tail of the inputs log, the output at the tail of the
outputs log, provided the method itself leaves both logs alone. -/
theorem call_history_step {α : Type} (qn : String) (ser : α → String)
    (method : Cache → α → Cache × String)
    (hin : ∀ c a, ((method c a).1).redis.lrange (qn ++ ":inputs")
        = c.redis.lrange (qn ++ ":inputs"))
    (hout : ∀ c a, ((method c a).1).redis.lrange (qn ++ ":outputs")
        = c.redis.lrange (qn ++ ":outputs"))
    (c : Cache) (a : α) :
    ((call_history qn ser method c a).1).redis.lrange (qn ++ ":inputs")
        = c.redis.lrange (qn ++ ":inputs") ++ [ser a] ∧
    ((call_history qn ser method c a).1).redis.lrange (qn ++ ":outputs")
        = c.redis.lrange (qn ++ ":outputs") ++ [(call_history qn ser method c a).2] := by
  unfold call_history
  constructor
  · rw [lrange_rpush_other _ (Ne.symm (inputs_key_ne_outputs_key qn)), hin,
      lrange_rpush_self]
  · rw [lrange_rpush_self, hout, lrange_rpush_other _ (inputs_key_ne_outputs_key qn)]

/-- Iterating a `call_history`-wrapped method grows the two logs in lockstep:
the inputs log gains the serialized arguments in call order, the outputs log
gains the per-call results in the same order. -/
theorem iter_call_history {α : Type} (qn : String) (ser : α → String)
    (method : Cache → α → Cache × String)
    (hin : ∀ c a, ((method c a).1).redis.lrange (qn ++ ":inputs")
        = c.redis.lrange (qn ++ ":inputs"))
    (hout : ∀ c a, ((method c a).1).redis.lrange (qn ++ ":outputs")
        = c.redis.lrange (qn ++ ":outputs")) :
    ∀ (args : List α) (c : Cache),
      ((iterCalls (call_history qn ser method) c args).1).redis.lrange (qn ++ ":inputs")
          = c.redis.lrange (qn ++ ":inputs") ++ args.map ser ∧
      ((iterCalls (call_history qn ser method) c args).1).redis.lrange (qn ++ ":outputs")
          = c.redis.lrange (qn ++ ":outputs")
              ++ (iterCalls (call_history qn ser method) c args).2 ∧
      (iterCalls (call_history qn ser method) c args).2.length = args.length := by
  intro args
  induction args with
  | nil => intro c; simp [iterCalls]
  | cons a rest ih =>
      intro c
      obtain ⟨step_in, step_out⟩ := call_history_step qn ser method hin hout c a
      obtain ⟨ih_in, ih_out, ih_len⟩ := ih (call_history qn ser method c a).1
      refine ⟨?_, ?_, ?_⟩
      · simp only [iterCalls, List.map]
        rw [ih_in, step_in, List.append_assoc]
        rfl
      · simp only [iterCalls]
        rw [ih_out, step_out, List.append_assoc]
        rfl
      · simp only [iterCalls, List.length_cons]
        rw [ih_len]

/-- Claim C3: for every method wrapped by `call_history` (the method itself
not touching the two log keys) and every sequence of `n` successful calls
starting from empty logs, the inputs log holds exactly the `n` serialized
argument tuples in call order, the outputs log holds exactly the `n` results
in the same order (so entry `i` of the outputs log is the result of the call
whose serialized arguments are entry `i` of the inputs log), and during each
call the wrapped method already sees its own input appended while the output
is appended only after it returns. -/
theorem call_history_lockstep {α : Type} (qn : String) (ser : α → String)
    (method : Cache → α → Cache × String)
    (hin : ∀ c a, ((method c a).1).redis.lrange (qn ++ ":inputs")
        = c.redis.lrange (qn ++ ":inputs"))
    (hout : ∀ c a, ((method c a).1).redis.lrange (qn ++ ":outputs")
        = c.redis.lrange (qn ++ ":outputs"))
    (c0 : Cache)
    (hempty_in : c0.redis.lrange (qn ++ ":inputs") = [])
    (hempty_out : c0.redis.lrange (qn ++ ":outputs") = [])
    (args : List α) :
    (((iterCalls (call_history qn ser method) c0 args).1).redis.lrange (qn ++ ":inputs")
        = args.map ser ∧
     ((iterCalls (call_history qn ser method) c0 args).1).redis.lrange (qn ++ ":outputs")
        = (iterCalls (call_history qn ser method) c0 args).2 ∧
     (iterCalls (call_history qn ser method) c0 args).2.length = args.length) ∧
    (∀ (c : Cache) (a : α),
      (call_history qn ser
          (fun c _ => (c, toString ((c.redis.lrange (qn ++ ":inputs")).length)
            ++ "/" ++ toString ((c.redis.lrange (qn ++ ":outputs")).length))) c a).2
        = toString ((c.redis.lrange (qn ++ ":inputs")).length + 1)
            ++ "/" ++ toString ((c.redis.lrange (qn ++ ":outputs")).length)) := by
  constructor
  · obtain ⟨h1, h2, h3⟩ := iter_call_history qn ser method hin hout args c0
    rw [hempty_in] at h1
    rw [hempty_out] at h2
    exact ⟨by simpa using h1, by simpa using h2, h3⟩
  · intro c a
    unfold call_history
    simp only []
    rw [lrange_rpush_self, lrange_rpush_other _ (inputs_key_ne_outputs_key qn)]
    simp

/-- Witness for C3 at a concrete input: two recorded calls of a trivial method
leave the logs `["a", "b"]` and `["k", "k"]`, in lockstep. -/
theorem call_history_lockstep_witness :
    ((iterCalls (call_history "Cache.store" (fun s : String => s)
        (fun (c : Cache) (_ : String) => (c, "k")))
        (Cache.init RedisState.empty) ["a", "b"]).1).redis.lrange ("Cache.store" ++ ":inputs")
        = ["a", "b"] ∧
    ((iterCalls (call_history "Cache.store" (fun s : String => s)
        (fun (c : Cache) (_ : String) => (c, "k")))
        (Cache.init RedisState.empty) ["a", "b"]).1).redis.lrange ("Cache.store" ++ ":outputs")
        = ["k", "k"] ∧
    (iterCalls (call_history "Cache.store" (fun s : String => s)
        (fun (c : Cache) (_ : String) => (c, "k")))
        (Cache.init RedisState.empty) ["a", "b"]).2.length = 2 :=
  (call_history_lockstep "Cache.store" (fun s : String => s)
    (fun (c : Cache) (_ : String) => (c, "k"))
    (fun _ _ => rfl) (fun _ _ => rfl) (Cache.init RedisState.empty) rfl rfl ["a", "b"]).1

/-- Claim C5: `replay` reads the entire inputs and outputs logs of the given
operation identity, pairs input `i` with output `i` by position, and produces
the report: a header with the total call count followed by one
`identity(args) -> output` line per call; the store itself is returned
unchanged (no mutation). -/
theorem replay_reports_history (qn : String) (st : RedisState)
    (h : (st.lrange (qn ++ ":inputs")).length = (st.lrange (qn ++ ":outputs")).length) :
    (replay qn st).1 = st ∧
    (replay qn st).2.length = (st.lrange (qn ++ ":inputs")).length + 1 ∧
    (replay qn st).2.head? = some (qn ++ " was called "
        ++ toString (st.lrange (qn ++ ":inputs")).length ++ " times:") ∧
    ∀ (i : Nat) (hi : i < (st.lrange (qn ++ ":inputs")).length),
      (replay qn st).2[i + 1]?
        = some (qn ++ (st.lrange (qn ++ ":inputs")).get ⟨i, hi⟩ ++ " -> "
            ++ (st.lrange (qn ++ ":outputs")).get ⟨i, by omega⟩) := by
  refine ⟨rfl, ?_, rfl, ?_⟩
  · simp [replay, List.length_zipWith, h]
  · intro i hi
    have hi2 : i < (st.lrange (qn ++ ":outputs")).length := by omega
    simp only [replay, List.getElem?_cons_succ]
    rw [List.getElem?_zipWith]
    rw [List.getElem?_eq_getElem hi, List.getElem?_eq_getElem hi2]
    simp

/-- Witness for C5 at a concrete input: one recorded call whose input string
is `(97,)` and whose output is `k1`; the report pairs them on the line after
the header, and the store is unchanged. -/
theorem replay_reports_history_witness :
    (replay "f" ((RedisState.empty.rpush "f:inputs" "(97,)").rpush "f:outputs" "k1")).1
        = (RedisState.empty.rpush "f:inputs" "(97,)").rpush "f:outputs" "k1" ∧
    (replay "f" ((RedisState.empty.rpush "f:inputs" "(97,)").rpush "f:outputs" "k1")).2[1]?
        = some "f(97,) -> k1" := by
  have H := replay_reports_history "f"
    ((RedisState.empty.rpush "f:inputs" "(97,)").rpush "f:outputs" "k1") rfl
  refine ⟨H.1, ?_⟩
  have := H.2.2.2 0 (by decide)
  simpa using this

theorem truthy_none : truthy none = false := rfl

theorem truthy_some_empty : truthy (some "") = false := by decide

theorem truthy_some_ne {s : String} (h : s ≠ "") : truthy (some s) = true := by
  have he : s.isEmpty = false := by
    rw [← Bool.not_eq_true]
    intro hh
    exact h ((String.isEmpty_iff s).mp hh)
  simp [truthy, he]

/-- Cache-hit path of `get_page`: when the cached value is truthy, the only
store effect is the access-count increment and the cached value is returned
without invoking the underlying fetch. -/
theorem get_page_hit {ε : Type} (f : String → Except ε String) (url : String)
    (w : WebState) (c : String)
    (h : w.redis.get ("cache:" ++ url) = some c) (hc : c ≠ "") :
    get_page f w url
      = ({ w with redis := (w.redis.incr ("count:" ++ url)).1 }, Except.ok c) := by
  simp only [get_page, cache_and_count_access]
  rw [get_incr_other _ (count_key_ne_cache_key url), h, truthy_some_ne hc]
  simp

/-- Cache-miss path of `get_page` with a successful fetch: the counter is
incremented, the fetch runs once, and the result is cached with TTL 10. -/
theorem get_page_miss_ok {ε : Type} (f : String → Except ε String) (url : String)
    (w : WebState) (r : String)
    (h : truthy (w.redis.get ("cache:" ++ url)) = false)
    (hf : f url = Except.ok r) :
    get_page f w url =
      ({ redis := ((w.redis.incr ("count:" ++ url)).1).setex ("cache:" ++ url) 10 r,
         fetchCount := w.fetchCount + 1 }, Except.ok r) := by
  simp only [get_page, cache_and_count_access, requests_get]
  rw [get_incr_other _ (count_key_ne_cache_key url), h]
  simp [hf]

/-- Cache-miss path of `get_page` with a failing fetch: the counter increment
and the fetch attempt survive, nothing is cached, and the error propagates. -/
theorem get_page_miss_err {ε : Type} (f : String → Except ε String) (url : String)
    (w : WebState) (e : ε)
    (h : truthy (w.redis.get ("cache:" ++ url)) = false)
    (hf : f url = Except.error e) :
    get_page f w url =
      ({ redis := (w.redis.incr ("count:" ++ url)).1,
         fetchCount := w.fetchCount + 1 }, Except.error e) := by
  simp only [get_page, cache_and_count_access, requests_get]
  rw [get_incr_other _ (count_key_ne_cache_key url), h]
  simp [hf]

/-- Claim C1 (counterexample): with an underlying fetch returning the empty
string, two `get_page` calls for the same URL on a fresh store — well within
the TTL window — invoke the underlying slow fetch twice, not exactly once:
the cached empty string is falsy, so the second call misses. -/
theorem get_page_twice_cex :
    (get_page (fun _ => (Except.ok "" : Except Unit String))
        ((get_page (fun _ => (Except.ok "" : Except Unit String))
            (⟨RedisState.empty, 0⟩ : WebState) "u").1) "u").1.fetchCount = 2 ∧
    (get_page (fun _ => (Except.ok "" : Except Unit String))
        ((get_page (fun _ => (Except.ok "" : Except Unit String))
            (⟨RedisState.empty, 0⟩ : WebState) "u").1) "u").1.fetchCount ≠ 1 := by
  constructor
  · rfl
  · decide

/-- Claim C1 (amended): for every URL whose fetched result is a nonempty
(truthy) string, calling `get_page` twice with the same URL within the TTL
window, starting uncached with a fresh access counter, invokes the underlying
slow fetch exactly once; the second call returns the cached result directly,
and the `count:<url>` counter equals 2 afterwards. -/
theorem get_page_memoizes {ε : Type} (f : String → Except ε String) (url : String)
    (w : WebState) (r : String)
    (hcache : w.redis.get ("cache:" ++ url) = none)
    (hcount : w.redis.counter ("count:" ++ url) = 0)
    (hf : f url = Except.ok r) (hr : r ≠ "") :
    (get_page f (get_page f w url).1 url).1.fetchCount = w.fetchCount + 1 ∧
    (get_page f w url).2 = Except.ok r ∧
    (get_page f (get_page f w url).1 url).2 = Except.ok r ∧
    (get_page f (get_page f w url).1 url).1.redis.counter ("count:" ++ url) = 2 := by
  have hmiss : truthy (w.redis.get ("cache:" ++ url)) = false := by
    rw [hcache]; rfl
  have h1 := get_page_miss_ok f url w r hmiss hf
  have hw1cache : ((get_page f w url).1).redis.get ("cache:" ++ url) = some r := by
    rw [h1]
    exact get_setex_self_live _ _ (by omega) r
  have h2 := get_page_hit f url (get_page f w url).1 r hw1cache hr
  refine ⟨?_, ?_, ?_, ?_⟩
  · rw [h2, h1]
  · rw [h1]
  · rw [h2]
  · rw [h2, h1]
    simp only [counter_incr_self,
      counter_setex_other _ (Ne.symm (count_key_ne_cache_key url))]
    rw [hcount]
    omega

/-- Witness for the amended C1 at a concrete input: a fresh store, the fetch
returning the page text `PAGE`. -/
theorem get_page_memoizes_witness :
    (get_page (fun _ => (Except.ok "PAGE" : Except Unit String))
        ((get_page (fun _ => (Except.ok "PAGE" : Except Unit String))
            (⟨RedisState.empty, 0⟩ : WebState) "u").1) "u").1.fetchCount = 1 ∧
    (get_page (fun _ => (Except.ok "PAGE" : Except Unit String))
        (⟨RedisState.empty, 0⟩ : WebState) "u").2 = Except.ok "PAGE" ∧
    (get_page (fun _ => (Except.ok "PAGE" : Except Unit String))
        ((get_page (fun _ => (Except.ok "PAGE" : Except Unit String))
            (⟨RedisState.empty, 0⟩ : WebState) "u").1) "u").2 = Except.ok "PAGE" ∧
    (get_page (fun _ => (Except.ok "PAGE" : Except Unit String))
        ((get_page (fun _ => (Except.ok "PAGE" : Except Unit String))
            (⟨RedisState.empty, 0⟩ : WebState) "u").1) "u").1.redis.counter
        ("count:" ++ "u") = 2 :=
  get_page_memoizes (fun _ => (Except.ok "PAGE" : Except Unit String)) "u" ⟨RedisState.empty, 0⟩ "PAGE"
    rfl rfl rfl (by decide)

/-- Claim C6: when the underlying slow fetch fails on an uncached (or expired,
or falsy) argument, `get_page` writes nothing to the cache key, propagates the
failure unchanged, keeps the access-count increment, and records the fetch
attempt. -/
theorem get_page_fetch_failure {ε : Type} (f : String → Except ε String) (url : String)
    (w : WebState) (e : ε)
    (hcache : truthy (w.redis.get ("cache:" ++ url)) = false)
    (hf : f url = Except.error e) :
    (get_page f w url).2 = Except.error e ∧
    (get_page f w url).1.redis.get ("cache:" ++ url) = w.redis.get ("cache:" ++ url) ∧
    (get_page f w url).1.redis.counter ("count:" ++ url)
        = w.redis.counter ("count:" ++ url) + 1 ∧
    (get_page f w url).1.fetchCount = w.fetchCount + 1 := by
  have h := get_page_miss_err f url w e hcache hf
  refine ⟨by rw [h], ?_, ?_, by rw [h]⟩
  · rw [h]
    exact get_incr_other _ (count_key_ne_cache_key url)
  · rw [h]
    exact counter_incr_self _ _

/-- Witness for C6 at a concrete input: a fresh store and a fetch that always
raises; the error comes back, the cache key stays absent, and the counter
reads 1. -/
theorem get_page_fetch_failure_witness :
    (get_page (fun _ => (Except.error "boom" : Except String String))
        (⟨RedisState.empty, 0⟩ : WebState) "u").2 = Except.error "boom" ∧
    (get_page (fun _ => (Except.error "boom" : Except String String))
        (⟨RedisState.empty, 0⟩ : WebState) "u").1.redis.get ("cache:" ++ "u") = none ∧
    (get_page (fun _ => (Except.error "boom" : Except String String))
        (⟨RedisState.empty, 0⟩ : WebState) "u").1.redis.counter ("count:" ++ "u") = 1 ∧
    (get_page (fun _ => (Except.error "boom" : Except String String))
        (⟨RedisState.empty, 0⟩ : WebState) "u").1.fetchCount = 1 :=
  get_page_fetch_failure (fun _ => Except.error "boom") "u" ⟨RedisState.empty, 0⟩
    "boom" rfl rfl

/-- Claim C9: when the value stored under `cache:<url>` is the empty string,
a call within the TTL window treats it as a miss: the underlying slow fetch
runs again, its result is returned, and the cache entry is rewritten. -/
theorem get_page_empty_cache_refetch {ε : Type} (f : String → Except ε String)
    (url : String) (w : WebState) (r : String)
    (hcache : w.redis.get ("cache:" ++ url) = some "")
    (hf : f url = Except.ok r) :
    (get_page f w url).1.fetchCount = w.fetchCount + 1 ∧
    (get_page f w url).2 = Except.ok r ∧
    (get_page f w url).1.redis.get ("cache:" ++ url) = some r := by
  have hmiss : truthy (w.redis.get ("cache:" ++ url)) = false := by
    rw [hcache]
    exact truthy_some_empty
  have h := get_page_miss_ok f url w r hmiss hf
  refine ⟨by rw [h], by rw [h], ?_⟩
  rw [h]
  exact get_setex_self_live _ _ (by omega) r

/-- Witness for C9 at a concrete input: a store whose cache entry for the URL
holds the empty string; the fetch runs and the entry is rewritten to `NEW`. -/
theorem get_page_empty_cache_refetch_witness :
    (get_page (fun _ => (Except.ok "NEW" : Except Unit String))
        (⟨RedisState.empty.set ("cache:" ++ "u") "", 0⟩ : WebState) "u").1.fetchCount = 1 ∧
    (get_page (fun _ => (Except.ok "NEW" : Except Unit String))
        (⟨RedisState.empty.set ("cache:" ++ "u") "", 0⟩ : WebState) "u").2
        = Except.ok "NEW" ∧
    (get_page (fun _ => (Except.ok "NEW" : Except Unit String))
        (⟨RedisState.empty.set ("cache:" ++ "u") "", 0⟩ : WebState) "u").1.redis.get
        ("cache:" ++ "u") = some "NEW" :=
  get_page_empty_cache_refetch (fun _ => Except.ok "NEW") "u"
    ⟨RedisState.empty.set ("cache:" ++ "u") "", 0⟩ "NEW" rfl rfl

/-- Claim C7: a fresh result is stored under the cache key with a fixed TTL of
exactly 10 time units — after `dt < 10` time units the entry is still present,
after `dt ≥ 10` it is absent — and a second call made after the TTL has
expired invokes the underlying slow operation again. -/
theorem get_page_ttl_expiry {ε : Type} (f : String → Except ε String) (url : String)
    (w : WebState) (r : String)
    (hcache : w.redis.get ("cache:" ++ url) = none)
    (hf : f url = Except.ok r) :
    (∀ dt : Nat, ((get_page f w url).1.redis.tick dt).get ("cache:" ++ url)
        = if dt < 10 then some r else none) ∧
    (∀ dt : Nat, 10 ≤ dt →
      (get_page f
          ({ (get_page f w url).1 with
             redis := (get_page f w url).1.redis.tick dt }) url).1.fetchCount
        = w.fetchCount + 2) := by
  have hmiss : truthy (w.redis.get ("cache:" ++ url)) = false := by
    rw [hcache]; rfl
  have h1 := get_page_miss_ok f url w r hmiss hf
  constructor
  · intro dt
    rw [h1]
    exact get_tick_setex_self _ _ 10 dt r
  · intro dt hdt
    have hc2 : ((get_page f w url).1.redis.tick dt).get ("cache:" ++ url) = none := by
      rw [h1]
      show (((w.redis.incr ("count:" ++ url)).1.setex ("cache:" ++ url) 10 r).tick dt).get
          ("cache:" ++ url) = none
      rw [get_tick_setex_self, if_neg (by omega)]
    have hmiss2 : truthy ((({ (get_page f w url).1 with
        redis := (get_page f w url).1.redis.tick dt } : WebState)).redis.get
          ("cache:" ++ url)) = false := by
      show truthy (((get_page f w url).1.redis.tick dt).get ("cache:" ++ url)) = false
      rw [hc2]
      exact truthy_none
    have h2 := get_page_miss_ok f url _ r hmiss2 hf
    rw [h2]
    show (get_page f w url).1.fetchCount + 1 = w.fetchCount + 2
    rw [h1]

/-- Witness for C7 at a concrete input: eleven time units after the first
call the cache entry is gone, and a second call ten time units later fetches
again, for a total of two fetch invocations. -/
theorem get_page_ttl_expiry_witness :
    ((get_page (fun _ => (Except.ok "PAGE" : Except Unit String))
        (⟨RedisState.empty, 0⟩ : WebState) "u").1.redis.tick 11).get ("cache:" ++ "u")
        = none ∧
    (get_page (fun _ => (Except.ok "PAGE" : Except Unit String))
        ({ (get_page (fun _ => (Except.ok "PAGE" : Except Unit String))
              (⟨RedisState.empty, 0⟩ : WebState) "u").1 with
           redis := (get_page (fun _ => (Except.ok "PAGE" : Except Unit String))
              (⟨RedisState.empty, 0⟩ : WebState) "u").1.redis.tick 10 }) "u").1.fetchCount
        = 2 :=
  ⟨(get_page_ttl_expiry (fun _ => Except.ok "PAGE") "u" ⟨RedisState.empty, 0⟩ "PAGE"
      rfl rfl).1 11,
   (get_page_ttl_expiry (fun _ => Except.ok "PAGE") "u" ⟨RedisState.empty, 0⟩ "PAGE"
      rfl rfl).2 10 (by omega)⟩
